import Mathlib

/-!
Shallow embedding of the Zappo escrow claim engine (services/claims.js,
services/database.js), the pending-transaction confirmation dispatch
(handlers/commandHandler.js, handlers/transactionHandler.js) and the incoming
transaction poller (services/transactionPoller.js).

Amounts are modelled as exact rationals (the JS code manipulates decimal AVAX
amounts), timestamps as integers in abstract units, and the external
collaborators (Privy custody wallets, the chain RPC used for gas estimation
and broadcasting) as explicit oracle inputs.  Log output is modelled as a
list of token-derived data so that information-flow statements about the
claim token can be made; all other logged context (phones, amounts, ids) is
irrelevant to the claims and omitted.
-/

namespace Zappo

/-- Status enum of a Claim record, exactly the four string values used by
services/claims.js. -/
inductive ClaimStatus
  | pending
  | claimed
  | refunded
  | failed
deriving DecidableEq, Repr

/-- One escrow hold document in the claims collection, with the fields that
services/claims.js reads or writes.  `expires_at` is optional because the
code guards the expiry check with a truthiness test on the field. -/
structure ClaimRecord where
  id : Nat
  sender_phone : String
  sender_wallet_address : String
  recipient_phone : String
  token_hash : String
  ephemeral_wallet_id : String
  ephemeral_wallet_address : String
  amount_avax : Rat
  status : ClaimStatus
  hold_tx_hash : String
  expires_at : Option Int
  claim_tx_hash : Option String
  refund_tx_hash : Option String
  gas_cost : Option Rat
  transfer_amount : Option Rat
  refund_amount : Option Rat
  error_note : Option String
deriving DecidableEq, Repr

/-- Token-derived datum appearing in a log line.  `full` means the value
itself was interpolated into the log message, `digest` that only its sha256
hex digest was, `trunc8` that only its first eight characters were
(token.substring(0, 8) in the source).  Only `full` leaves the value in the
log in recoverable form. -/
inductive LoggedDatum
  | full (s : String)
  | digest (s : String)
  | trunc8 (s : String)
deriving DecidableEq, Repr

/-- Abstract model of hashToken (sha256 hex digest of the token,
services/claims.js line 12).  The cryptographic hash cannot be embedded; an
injective stand-in is used.  One-wayness is tracked by the `LoggedDatum`
constructors, never by inverting this function. -/
def hashToken (t : String) : String := "sha256:" ++ t

/-- Model of buildClaimLink (services/claims.js lines 16-19);
encodeURIComponent of the text CLAIM token is rendered with the single
space percent-encoded (the token itself is hex and unaffected). -/
def buildClaimLink (botNumber token : String) : String :=
  "https://wa.me/" ++ botNumber ++ "?text=CLAIM%20" ++ token

/-- Truthiness of an optional string input, as JavaScript sees it: undefined
and the empty string are falsy. -/
def optStrFalsy : Option String → Bool
  | none => true
  | some s => s = ""

/-- Truthiness of an optional numeric input: undefined and zero are falsy. -/
def optAmtFalsy : Option Rat → Bool
  | none => true
  | some a => a = 0

/-- Default of config.escrow.claimMinGasBuffer (config.js: parseFloat of
CLAIM_MIN_GAS_BUFFER or the string 0.0005). -/
def defaultClaimMinGasBuffer : Rat := 5 / 10000

/-- Gas-aware settlement calculation of the claim path, services/claims.js
lines 120-132 (duplicated verbatim on the refund path, lines 176-190):
safetyBuffer is config.escrow.claimMinGasBuffer or 0.002 when that is falsy,
totalRequired is gasCost plus the buffer, the transfer is rejected when
amount_avax is at most totalRequired and otherwise settles amount minus the
actual gas cost. -/
def claimSettlementCalc (cfgBuffer amount gasCost : Rat) : Option Rat :=
  let safetyBuffer := if cfgBuffer = 0 then 2 / 1000 else cfgBuffer
  let totalRequired := gasCost + safetyBuffer
  if amount ≤ totalRequired then none
  else some (amount - gasCost)

/-- Update documents passed to claims.updateClaimById by the engine; each
call site sets a terminal status plus the fields shown
(services/claims.js lines 146-152, 182-185, 193-198, 203-206). -/
inductive SetDoc
  | claimedDoc (txHash : String) (gasCost transferAmount : Rat)
  | refundedDoc (txHash : String) (gasCost refundAmount : Rat)
  | failedDoc (errMsg : String)
deriving DecidableEq, Repr

/-- Application of a Mongo set document to a claim document. -/
def applySet (doc : SetDoc) (r : ClaimRecord) : ClaimRecord :=
  match doc with
  | .claimedDoc h g t =>
      { r with status := .claimed, claim_tx_hash := some h,
               gas_cost := some g, transfer_amount := some t }
  | .refundedDoc h g a =>
      { r with status := .refunded, refund_tx_hash := some h,
               gas_cost := some g, refund_amount := some a }
  | .failedDoc m =>
      { r with status := .failed, error_note := some m }

/-- claims.updateClaimById (services/database.js lines 135-141): an
updateOne keyed on the document id alone — the first matching document is
rewritten unconditionally, with no guard on its current status. -/
def updateClaimById : List ClaimRecord → Nat → SetDoc → List ClaimRecord
  | [], _, _ => []
  | r :: rest, i, doc =>
    if r.id = i then applySet doc r :: rest
    else r :: updateClaimById rest i doc

/-- claims.findByTokenHash (services/database.js lines 125-128). -/
def findByTokenHash (store : List ClaimRecord) (tokenHash : String) :
    Option ClaimRecord :=
  store.find? (fun r => r.token_hash == tokenHash)

/-- claims.findExpiringPending (services/database.js lines 143-146): all
documents with status pending and an expires_at at most now. -/
def findExpiringPending (store : List ClaimRecord) (now : Int) :
    List ClaimRecord :=
  store.filter (fun r =>
    decide (r.status = .pending) &&
      (match r.expires_at with
       | some e => decide (e ≤ now)
       | none => false))

/-- Mongo assigns a fresh identity on insertOne; modelled as one more than
the largest id in the store. -/
def freshId (store : List ClaimRecord) : Nat :=
  (store.map (fun r => r.id)).foldr max 0 + 1

/-- Distinct error outcomes thrown by ClaimsService.validateAndClaim, in
source order (services/claims.js lines 72-141). -/
inductive ClaimError
  | missingParams
  | invalidOrExpired
  | notActive (st : ClaimStatus)
  | phoneMismatch
  | expired
  | walletUnavailable
  | gasEstimationFailed
  | insufficientFundsForGas
  | transactionFailed
deriving DecidableEq, Repr

/-- Result of a validateAndClaim call: the returned tx hash, gas cost and
transfer amount on success, or the thrown error. -/
inductive ClaimResult
  | ok (txHash : String) (gasCost transferAmount : Rat)
  | err (e : ClaimError)
deriving DecidableEq, Repr

/-- Oracle answers of the external collaborators during one
validateAndClaim call: the current time, whether
privyService.getWalletProvider returns a provider, the gas estimate
(none models a failed estimation or a missing estimatedCost), and the
broadcast result (none models a throw or a tx without hash). -/
structure ClaimEnv where
  now : Int
  walletAvailable : Bool
  gasEstimate : Option Rat
  sendResult : Option String
deriving DecidableEq, Repr

/-- Complete outcome of one validateAndClaim call: result, claims
collection afterwards, token-derived log data, and the settlement
broadcasts issued (destination, amount). -/
structure ClaimOutcome where
  result : ClaimResult
  claimsStore : List ClaimRecord
  logs : List LoggedDatum
  broadcasts : List (String × Rat)
deriving DecidableEq, Repr

/-- Token-derived data written by the catch-all error logger of
validateAndClaim (services/claims.js lines 157-162): the first eight
characters of the plaintext token, when one was supplied. -/
def catchLogs : Option String → List LoggedDatum
  | some t => [.trunc8 t]
  | none => []

/-- ClaimsService.validateAndClaim (services/claims.js lines 69-165),
line by line: the missing-parameter guard (which logs the raw inputs,
line 73), digest lookup, status, phone and expiry checks, wallet and gas
oracles, the settlement calculation, the sweep broadcast and the
unconditional status update on success.  Every thrown error additionally
passes through the catch logger. -/
def validateAndClaim (cfgBuffer : Rat) (env : ClaimEnv)
    (store : List ClaimRecord)
    (tokenPlain claimerPhone recipientWalletAddress : Option String) :
    ClaimOutcome :=
  if optStrFalsy tokenPlain || optStrFalsy claimerPhone ||
      optStrFalsy recipientWalletAddress then
    -- logger.error('Missing required parameters for claim:',
    --   { tokenPlain, claimerPhone, recipientWalletAddress }) logs the
    -- full plaintext token when it is present
    { result := .err .missingParams, claimsStore := store,
      logs := (match tokenPlain with
               | some t => [LoggedDatum.full t]
               | none => []) ++ catchLogs tokenPlain,
      broadcasts := [] }
  else
    match tokenPlain, claimerPhone, recipientWalletAddress with
    | some t, some p, some dest =>
      -- logger.info logs tokenPlain.substring(0, 8) (line 77)
      let baseLogs : List LoggedDatum := [.trunc8 t]
      match findByTokenHash store (hashToken t) with
      | none =>
        -- logger.warn logs the token hash (line 83)
        { result := .err .invalidOrExpired, claimsStore := store,
          logs := baseLogs ++ [.digest t] ++ catchLogs (some t),
          broadcasts := [] }
      | some record =>
        if record.status ≠ .pending then
          { result := .err (.notActive record.status), claimsStore := store,
            logs := baseLogs ++ catchLogs (some t), broadcasts := [] }
        else if record.recipient_phone ≠ p then
          { result := .err .phoneMismatch, claimsStore := store,
            logs := baseLogs ++ catchLogs (some t), broadcasts := [] }
        else if (match record.expires_at with
                 | some e => decide (e < env.now)
                 | none => false) then
          { result := .err .expired, claimsStore := store,
            logs := baseLogs ++ catchLogs (some t), broadcasts := [] }
        else if ¬ env.walletAvailable then
          { result := .err .walletUnavailable, claimsStore := store,
            logs := baseLogs ++ catchLogs (some t), broadcasts := [] }
        else
          match env.gasEstimate with
          | none =>
            { result := .err .gasEstimationFailed, claimsStore := store,
              logs := baseLogs ++ catchLogs (some t), broadcasts := [] }
          | some gasCost =>
            match claimSettlementCalc cfgBuffer record.amount_avax gasCost with
            | none =>
              { result := .err .insufficientFundsForGas, claimsStore := store,
                logs := baseLogs ++ catchLogs (some t), broadcasts := [] }
            | some transferAmount =>
              -- nebulaService.sendTransaction(privyWallet, dest, transferAmount)
              match env.sendResult with
              | none =>
                -- the throw on a missing hash reaches the catch logger and
                -- is rethrown; no status update is performed
                { result := .err .transactionFailed, claimsStore := store,
                  logs := baseLogs ++ catchLogs (some t),
                  broadcasts := [(dest, transferAmount)] }
              | some txHash =>
                { result := .ok txHash gasCost transferAmount,
                  claimsStore := updateClaimById store record.id
                    (.claimedDoc txHash gasCost transferAmount),
                  logs := baseLogs, broadcasts := [(dest, transferAmount)] }
    | _, _, _ =>
      -- unreachable: the falsy guard above already returned
      { result := .err .missingParams, claimsStore := store,
        logs := catchLogs tokenPlain, broadcasts := [] }

/-- Inputs of ClaimsService.createHold (services/claims.js line 28).
String fields model JavaScript strings whose empty value is falsy; the
amount is optional to model an absent argument. -/
structure HoldRequest where
  senderPhone : String
  senderAddress : String
  recipientPhone : String
  amountAvax : Option Rat
  ephemeralWalletId : String
  ephemeralWalletAddress : String
  holdTxHash : String
deriving DecidableEq, Repr

/-- Environment of one createHold call: the generated random token, the
current time, and the config values it reads (escrow.expiryDays,
escrow.botNumber).  Time is in abstract units in which the expiry window
has length expiryDays. -/
structure HoldEnv where
  token : String
  now : Int
  expiryDays : Int
  botNumber : String
deriving DecidableEq, Repr

/-- Result of createHold: the claim link and plaintext token, or the
thrown missing-parameter error. -/
inductive HoldResult
  | ok (link token : String)
  | err
deriving DecidableEq, Repr

/-- Complete outcome of one createHold call. -/
structure HoldOutcome where
  result : HoldResult
  claimsStore : List ClaimRecord
  logs : List LoggedDatum
deriving DecidableEq, Repr

/-- ClaimsService.createHold (services/claims.js lines 28-67): the
truthiness guard over the six checked parameters (holdTxHash is not in the
guard), token generation and digest, the pending claim document insert,
and the shareable link.  The success log writes the first eight characters
of the token (line 58). -/
def createHold (env : HoldEnv) (store : List ClaimRecord)
    (req : HoldRequest) : HoldOutcome :=
  if optStrFalsy (some req.senderPhone) || optStrFalsy (some req.senderAddress) ||
      optStrFalsy (some req.recipientPhone) || optAmtFalsy req.amountAvax ||
      optStrFalsy (some req.ephemeralWalletId) ||
      optStrFalsy (some req.ephemeralWalletAddress) then
    { result := .err, claimsStore := store, logs := [] }
  else
    match req.amountAvax with
    | none =>
      -- unreachable: optAmtFalsy none is true
      { result := .err, claimsStore := store, logs := [] }
    | some amount =>
      let record : ClaimRecord :=
        { id := freshId store
          sender_phone := req.senderPhone
          sender_wallet_address := req.senderAddress
          recipient_phone := req.recipientPhone
          token_hash := hashToken env.token
          ephemeral_wallet_id := req.ephemeralWalletId
          ephemeral_wallet_address := req.ephemeralWalletAddress
          amount_avax := amount
          status := .pending
          hold_tx_hash := req.holdTxHash
          expires_at := some (env.now + env.expiryDays)
          claim_tx_hash := none
          refund_tx_hash := none
          gas_cost := none
          transfer_amount := none
          refund_amount := none
          error_note := none }
      { result := .ok (buildClaimLink env.botNumber env.token) env.token,
        claimsStore := store ++ [record],
        logs := [.trunc8 env.token] }

/-- Oracle answers of the collaborators for the refund of one expired
record inside ClaimsService.refundExpired: whether getWalletProvider
throws, the gas estimate (none models a throw), and the broadcast result
(none models a throw, caught by the per-record catch block). -/
structure RefundOracle where
  walletThrows : Bool
  gasEstimate : Option Rat
  sendResult : Option String
deriving DecidableEq, Repr

/-- Refund handling of one expired record, the body of the for-loop of
ClaimsService.refundExpired (services/claims.js lines 170-207): any throw
is caught and turns the record failed; an amount at most gas plus buffer
turns it failed with the insufficient-funds note; otherwise the refund of
amount minus the actual gas cost is broadcast and the record turned
refunded.  Every update goes through updateClaimById keyed on the id
alone.  Catch-block error messages other than the insufficient-funds note
are abstracted to fixed strings.  Returns the store and the broadcasts
issued (destination, amount). -/
def refundOne (cfgBuffer : Rat) (oracle : RefundOracle)
    (store : List ClaimRecord) (rec : ClaimRecord) :
    List ClaimRecord × List (String × Rat) :=
  if oracle.walletThrows then
    (updateClaimById store rec.id (.failedDoc "wallet provider error"), [])
  else
    match oracle.gasEstimate with
    | none =>
      (updateClaimById store rec.id (.failedDoc "gas estimation error"), [])
    | some gasCost =>
      match claimSettlementCalc cfgBuffer rec.amount_avax gasCost with
      | none =>
        (updateClaimById store rec.id
          (.failedDoc "Insufficient funds for gas fees"), [])
      | some refundAmount =>
        match oracle.sendResult with
        | none =>
          (updateClaimById store rec.id (.failedDoc "transaction error"),
            [(rec.sender_wallet_address, refundAmount)])
        | some txHash =>
          (updateClaimById store rec.id
            (.refundedDoc txHash gasCost refundAmount),
            [(rec.sender_wallet_address, refundAmount)])

/-- ClaimsService.refundExpired (services/claims.js lines 167-209): the
expiring pending records are fetched once, then refunded one after the
other against the current store. -/
def refundExpired (cfgBuffer : Rat) (oracle : Nat → RefundOracle)
    (now : Int) (store : List ClaimRecord) :
    List ClaimRecord × List (String × Rat) :=
  (findExpiringPending store now).foldl
    (fun acc rec =>
      let step := refundOne cfgBuffer (oracle rec.id) acc.1 rec
      (step.1, acc.2 ++ step.2))
    (store, [])

/-- One atomic engine operation on the claims collection, for stating
sequential state-machine properties. -/
inductive EngineOp
  | hold (env : HoldEnv) (req : HoldRequest)
  | claim (cfgBuffer : Rat) (env : ClaimEnv)
      (tokenPlain claimerPhone recipientWalletAddress : Option String)
  | sweep (cfgBuffer : Rat) (oracle : Nat → RefundOracle) (now : Int)

/-- Store transformation of one engine operation. -/
def applyOp : EngineOp → List ClaimRecord → List ClaimRecord
  | .hold env req, store => (createHold env store req).claimsStore
  | .claim cfg env t p a, store => (validateAndClaim cfg env store t p a).claimsStore
  | .sweep cfg oracle now, store => (refundExpired cfg oracle now store).1

/-- Store transformation of a sequence of engine operations. -/
def applyOps (ops : List EngineOp) (store : List ClaimRecord) :
    List ClaimRecord :=
  ops.foldl (fun s op => applyOp op s) store

/-- Order on claim statuses: pending may move anywhere, every other
status only to itself. -/
def statusLe (a b : ClaimStatus) : Prop :=
  a = ClaimStatus.pending ∨ a = b

instance (a b : ClaimStatus) : Decidable (statusLe a b) := by
  unfold statusLe; infer_instance

/-- Pointwise evolution of the claims store: no record is removed and the
status at every pre-existing position moves only along statusLe. -/
def StoreMono (old new : List ClaimRecord) : Prop :=
  old.length ≤ new.length ∧
  ∀ (j : Nat) (hj : j < old.length) (hj' : j < new.length),
    statusLe (old.get ⟨j, hj⟩).status (new.get ⟨j, hj'⟩).status

/-- Well-formedness of the claims collection: Mongo assigns unique
document ids. -/
abbrev WFStore (store : List ClaimRecord) : Prop :=
  (store.map (fun r => r.id)).Nodup

/-- Store component of the refund sweep: the fetched records are refunded
one after the other against the evolving store. -/
def sweepStores (cfgBuffer : Rat) (oracle : Nat → RefundOracle)
    (recs store : List ClaimRecord) : List ClaimRecord :=
  recs.foldl (fun st rec => (refundOne cfgBuffer (oracle rec.id) st rec).1)
    store

/-! Pending-transaction confirmation dispatch
(handlers/commandHandler.js, handlers/transactionHandler.js). -/

/-- One stored pending transaction awaiting confirmation
(transactionHandler.js lines 193-197 and 213-224).  The direct-send
payload of line 224 carries no timestamp field at all; the small-amount
warning of line 193 does, hence the optional field. -/
structure PendingTxData where
  amount : Rat
  destination : String
  timestampMs : Option Int
deriving DecidableEq, Repr

/-- Classification of an inbound message by commandParser.isConfirmation
and isCancellation. -/
inductive Signal
  | confirm
  | cancel
  | unrecognized
deriving DecidableEq, Repr

/-- Observable outcome of a message that may resolve a pending
transaction. -/
inductive ConfirmOutcome
  | executed (tx : PendingTxData)
  | cancelledTx
  | reprompted
  | noPendingEntry
deriving DecidableEq, Repr

/-- Map lookup on the per-phone pendingTransactions map. -/
def lookupPending (m : List (String × PendingTxData)) (phone : String) :
    Option PendingTxData :=
  (m.find? (fun e => e.1 == phone)).map (fun e => e.2)

/-- Map deletion on the pendingTransactions map. -/
def erasePending : List (String × PendingTxData) → String →
    List (String × PendingTxData)
  | [], _ => []
  | e :: rest, p => if e.1 = p then rest else e :: erasePending rest p

/-- Map.set: storing a pending transaction overwrites any existing entry
for the phone (transactionHandler.js line 224). -/
def proposePending (m : List (String × PendingTxData)) (phone : String)
    (tx : PendingTxData) : List (String × PendingTxData) :=
  erasePending m phone ++ [(phone, tx)]

/-- The commandHandler.handleMessage dispatch (lines 59-64) composed with
handleTransactionConfirmation (lines 420-449): when the phone has a
pending entry, a confirm deletes the entry and hands the stored payload to
transactionHandler.executePendingTransaction, a cancel deletes it, any
other text re-prompts; no timestamp is consulted anywhere on this path.
When there is no entry the message falls through to normal command
parsing. -/
def handleConfirmationMessage (pending : List (String × PendingTxData))
    (phone : String) (sig : Signal) (_nowMs : Int) :
    List (String × PendingTxData) × ConfirmOutcome :=
  match lookupPending pending phone with
  | none => (pending, .noPendingEntry)
  | some tx =>
    match sig with
    | .confirm => (erasePending pending phone, .executed tx)
    | .cancel => (erasePending pending phone, .cancelledTx)
    | .unrecognized => (pending, .reprompted)

/-! Incoming transaction poller (services/transactionPoller.js). -/

/-- Status of a persisted transaction record. -/
inductive TxStatus
  | pending
  | success
  | failed
deriving DecidableEq, Repr

/-- One document of the transactions collection, with the fields written
by processIncomingTransaction (transactionPoller.js lines 201-209).  The
JavaScript fields from and to are rendered sender and recipient. -/
structure TxRecord where
  user_phone : String
  tx_hash : String
  sender : String
  recipient : String
  amount : Rat
  status : TxStatus
  timestamp : Int
deriving DecidableEq, Repr

/-- transactions.findTransactionByHash (services/database.js lines
183-186). -/
def findTransactionByHash (store : List TxRecord) (h : String) :
    Option TxRecord :=
  store.find? (fun r => r.tx_hash == h)

/-- One incoming chain transaction as assembled by
scanBlocksForTransactions (transactionPoller.js lines 165-173). -/
structure IncomingTx where
  hash : String
  sender : String
  recipient : String
  value : Rat
  timestamp : Int
deriving DecidableEq, Repr

/-- TransactionPoller.processIncomingTransaction (transactionPoller.js
lines 190-228): when a record with the same hash already exists, return
with no insert and no notification; otherwise insert a success record and
notify the user (the notification is modelled by the phone it is sent
to). -/
def processIncomingTransaction (userPhone : String) (tx : IncomingTx)
    (store : List TxRecord) : List TxRecord × Option String :=
  match findTransactionByHash store tx.hash with
  | some _ => (store, none)
  | none =>
    (store ++
      [{ user_phone := userPhone, tx_hash := tx.hash, sender := tx.sender,
         recipient := tx.recipient, amount := tx.value, status := .success,
         timestamp := tx.timestamp }],
      some userPhone)

/-! Interleaving model of the claim/sweep race on one shared claims store.
Both validateAndClaim and refundExpired first read the store (digest
lookup plus checks, respectively findExpiringPending) and later broadcast
and write through updateClaimById, which is keyed on the id alone and
carries no guard on the current status.  The model splits each path into
its read step and its commit step and lets the two paths interleave. -/

/-- The pure read-and-validate phase of validateAndClaim
(services/claims.js lines 80-132): the record found for the token digest
together with the gas cost and transfer amount, when every check passes
against the current store. -/
def claimerValidate (cfgBuffer : Rat) (env : ClaimEnv)
    (store : List ClaimRecord) (t p : String) : Option (Nat × Rat × Rat) :=
  match findByTokenHash store (hashToken t) with
  | none => none
  | some record =>
    if record.status ≠ .pending then none
    else if record.recipient_phone ≠ p then none
    else if (match record.expires_at with
             | some e => decide (e < env.now)
             | none => false) then none
    else if ¬ env.walletAvailable then none
    else
      match env.gasEstimate with
      | none => none
      | some g =>
        (claimSettlementCalc cfgBuffer record.amount_avax g).map
          (fun tr => (record.id, g, tr))

/-- Thread identifiers of the interleaving model. -/
inductive RaceThread
  | claimerT
  | sweeperT
deriving DecidableEq, Repr

/-- Fixed inputs of the two racing paths: the claimer's oracles and
claim-command inputs, and the sweep's clock and per-record oracles. -/
structure RaceEnv where
  cfgBuffer : Rat
  claimEnv : ClaimEnv
  tokenPlain : String
  claimerPhone : String
  claimerDest : String
  claimTxHash : String
  sweepNow : Int
  sweepOracle : Nat → RefundOracle

/-- Shared state of the interleaving model: the claims store, each
thread's stage (0 before its read, 1 between read and commit, 2 done),
what each read returned, and every settlement broadcast issued. -/
structure RaceState where
  store : List ClaimRecord
  claimerStage : Nat
  claimerTarget : Option (Nat × Rat × Rat)
  sweeperStage : Nat
  sweeperRecs : List ClaimRecord
  broadcasts : List (String × Rat)

/-- One step of the indicated thread.  The claimer's read runs the check
sequence of validateAndClaim; its commit broadcasts the sweep transfer and
performs the unguarded updateClaimById of lines 146-152.  The sweeper's
read is findExpiringPending; its commit refunds every fetched record
through refundOne. -/
def raceStep (env : RaceEnv) (s : RaceState) : RaceThread → RaceState
  | .claimerT =>
    if s.claimerStage = 0 then
      { s with
        claimerTarget :=
          claimerValidate env.cfgBuffer env.claimEnv s.store env.tokenPlain
            env.claimerPhone,
        claimerStage := 1 }
    else if s.claimerStage = 1 then
      match s.claimerTarget with
      | some (i, g, tr) =>
        { s with
          store := updateClaimById s.store i (.claimedDoc env.claimTxHash g tr),
          broadcasts := s.broadcasts ++ [(env.claimerDest, tr)],
          claimerStage := 2 }
      | none => { s with claimerStage := 2 }
    else s
  | .sweeperT =>
    if s.sweeperStage = 0 then
      { s with
        sweeperRecs := findExpiringPending s.store env.sweepNow,
        sweeperStage := 1 }
    else if s.sweeperStage = 1 then
      let step := s.sweeperRecs.foldl
        (fun acc rec =>
          let one := refundOne env.cfgBuffer (env.sweepOracle rec.id) acc.1 rec
          (one.1, acc.2 ++ one.2))
        (s.store, s.broadcasts)
      { s with store := step.1, broadcasts := step.2, sweeperStage := 2 }
    else s

/-- Run of a schedule of thread steps. -/
def runRace (env : RaceEnv) (sched : List RaceThread) (s : RaceState) :
    RaceState :=
  sched.foldl (raceStep env) s

/-- Initial race state over a given store. -/
def initRace (store : List ClaimRecord) : RaceState :=
  { store := store, claimerStage := 0, claimerTarget := none,
    sweeperStage := 0, sweeperRecs := [], broadcasts := [] }

/-! Concrete fixtures used by counterexamples and witnesses. -/

/-- A sample 16-character claim token. -/
def sampleToken : String := "a1b2c3d4e5f60718"

/-- A pending escrow hold of 1 AVAX restricted to phone 15550001111,
expiring at time 100. -/
def sampleRecord : ClaimRecord :=
  { id := 1, sender_phone := "15550002222",
    sender_wallet_address := "0xSender",
    recipient_phone := "15550001111", token_hash := hashToken sampleToken,
    ephemeral_wallet_id := "wallet-1", ephemeral_wallet_address := "0xEph",
    amount_avax := 1, status := .pending, hold_tx_hash := "0xHold",
    expires_at := some 100, claim_tx_hash := none, refund_tx_hash := none,
    gas_cost := none, transfer_amount := none, refund_amount := none,
    error_note := none }

/-- Collaborator oracles for a claim attempt read at time 99 with a gas
estimate of 0.01 AVAX and a successful broadcast. -/
def sampleClaimEnv : ClaimEnv :=
  { now := 99, walletAvailable := true, gasEstimate := some (1/100),
    sendResult := some "0xClaim" }

/-- The race fixture: the claimer reads just before expiry (time 99), the
sweep fires at expiry (time 100), and both collaborator oracles
succeed. -/
def sampleRaceEnv : RaceEnv :=
  { cfgBuffer := defaultClaimMinGasBuffer,
    claimEnv := sampleClaimEnv,
    tokenPlain := sampleToken, claimerPhone := "15550001111",
    claimerDest := "0xDest", claimTxHash := "0xClaim", sweepNow := 100,
    sweepOracle := fun _ =>
      { walletThrows := false, gasEstimate := some (1/100),
        sendResult := some "0xRefund" } }

/-- Environment of a sample createHold call. -/
def sampleHoldEnv : HoldEnv :=
  { token := sampleToken, now := 0, expiryDays := 3,
    botNumber := "919489042245" }

/-- A createHold request with every field present and amount minus one. -/
def negativeHoldReq : HoldRequest :=
  { senderPhone := "15550002222", senderAddress := "0xSender",
    recipientPhone := "15550001111", amountAvax := some (-1),
    ephemeralWalletId := "wallet-1", ephemeralWalletAddress := "0xEph",
    holdTxHash := "0xHold" }

/-- A stored pending transaction, proposed at time 0 (milliseconds). -/
def samplePendingTx : PendingTxData :=
  { amount := 2, destination := "0xDest", timestampMs := some 0 }

/-- A createHold request whose sender phone is empty. -/
def emptySenderReq : HoldRequest :=
  { negativeHoldReq with senderPhone := "", amountAvax := some 2 }

/-- Refund collaborator oracles that all succeed, with a gas estimate of
0.01 AVAX. -/
def sampleRefundOracle : RefundOracle :=
  { walletThrows := false, gasEstimate := some (1/100),
    sendResult := some "0xRefund" }

/-- The sample record already claimed. -/
def claimedRecord : ClaimRecord := { sampleRecord with status := .claimed }

/-! Theorems.  The Batteries rational arithmetic operations are irreducible
by default; they are unsealed so that concrete counterexamples and
witnesses can be settled by kernel evaluation. -/

unseal Rat.add Rat.sub Rat.mul Rat.inv Rat.ofScientific

/-- C1: updateClaimById writes by id with no guard on the current status,
so the claim path and the expiry sweep can both pass their status checks
on the same pending record before either writes, and then both broadcast:
the interleaving claimer-read, sweeper-read, claimer-commit,
sweeper-commit issues the claim sweep to the claimer and the refund to
the sender for the same 1 AVAX hold (two settlement broadcasts, final
status refunded), whereas running the claimer to completion first yields
a single broadcast.  This refutes the stated invariant that at most one
caller wins the transition out of pending and at most one settlement
broadcast is issued. -/
theorem race_double_settlement :
    (runRace sampleRaceEnv [.claimerT, .sweeperT, .claimerT, .sweeperT]
        (initRace [sampleRecord])).broadcasts =
      [("0xDest", 99/100), ("0xSender", 99/100)] ∧
    ((runRace sampleRaceEnv [.claimerT, .sweeperT, .claimerT, .sweeperT]
        (initRace [sampleRecord])).store.map (fun r => r.status)) =
      [ClaimStatus.refunded] ∧
    (runRace sampleRaceEnv [.claimerT, .claimerT, .sweeperT, .sweeperT]
        (initRace [sampleRecord])).broadcasts = [("0xDest", 99/100)] := by
  refine ⟨?_, ?_, ?_⟩ <;> decide

/-- C8: validateAndClaim with a present plaintext token but a missing
recipient wallet address runs the missing-parameter error logger of
services/claims.js line 73, which interpolates the full plaintext token
into the log entry — the token appears in a log in recoverable form. -/
theorem plaintext_token_logged_on_missing_param :
    LoggedDatum.full sampleToken ∈
      (validateAndClaim defaultClaimMinGasBuffer sampleClaimEnv
        [sampleRecord] (some sampleToken) (some "15550001111") none).logs := by
  decide

/-- C3 counterexample: when every check passes but the broadcast returns
no transaction hash, validateAndClaim throws and performs no status
update — the record is left pending and no failed status with an error
note is persisted, contrary to the claim. -/
theorem broadcast_failure_leaves_pending_cex :
    (validateAndClaim defaultClaimMinGasBuffer
        { sampleClaimEnv with sendResult := none } [sampleRecord]
        (some sampleToken) (some "15550001111") (some "0xDest")).result =
      .err .transactionFailed ∧
    (validateAndClaim defaultClaimMinGasBuffer
        { sampleClaimEnv with sendResult := none } [sampleRecord]
        (some sampleToken) (some "15550001111") (some "0xDest")).claimsStore =
      [sampleRecord] ∧
    sampleRecord.status = .pending ∧
    (validateAndClaim defaultClaimMinGasBuffer
        { sampleClaimEnv with sendResult := none } [sampleRecord]
        (some sampleToken) (some "15550001111") (some "0xDest")).broadcasts =
      [("0xDest", 99/100)] := by
  refine ⟨?_, ?_, ?_, ?_⟩ <;> decide

/-- C4 counterexample: the code tests expires_at strictly less than now,
so at the boundary instant now equal to expires_at — where now less than
expiresAt does not hold — the attempt does not fail with the expired
error but settles and broadcasts. -/
theorem expiry_boundary_claim_succeeds_cex :
    sampleRecord.expires_at = some 100 ∧ ¬ ((100 : Int) < 100) ∧
    (validateAndClaim defaultClaimMinGasBuffer
        { sampleClaimEnv with now := 100 } [sampleRecord]
        (some sampleToken) (some "15550001111") (some "0xDest")).result =
      .ok "0xClaim" (1/100) (99/100) := by
  refine ⟨?_, ?_, ?_⟩ <;> decide

/-- C5 counterexample: for amount 0.01 and gas cost 0.0092 the spec
formula rejects with AmountTooSmallForGas — its required value is at
least the gas cost, which already exceeds 0.9 times the amount — but the
code accepts and settles 0.0008, because its only test is amount at most
gas plus the fixed buffer. -/
theorem settlement_formula_cex :
    (9 : Rat)/10 * (1/100) < 23/2500 ∧
    claimSettlementCalc defaultClaimMinGasBuffer (1/100) (23/2500) =
      some (1/1250) := by
  exact ⟨by norm_num, by decide⟩

/-- C7 counterexample: a pending transaction proposed at time 0 is still
executed by a confirm arriving at time 300001 ms, beyond the five-minute
TTL — the resolver neither discards the stale entry nor reports that
there is nothing to confirm. -/
theorem stale_confirm_executes_cex :
    (300001 : Int) > 5 * 60 * 1000 ∧
    handleConfirmationMessage
        (proposePending [] "15550001111" samplePendingTx)
        "15550001111" .confirm 300001 =
      ([], .executed samplePendingTx) := by
  exact ⟨by norm_num, by decide⟩

/-- C7 amended: the pending-transaction confirmation path consults no
clock at all — whenever a pending entry exists for the phone, a confirm
signal deletes the entry and hands the stored operation to the executor,
no matter how much time has passed since it was proposed.  (The
five-minute TTL of the source applies only to the separate userStates
conversation map, not to pendingTransactions.) -/
theorem confirm_executes_regardless_of_age
    (pending : List (String × PendingTxData)) (phone : String)
    (tx : PendingTxData) (nowMs : Int)
    (hlook : lookupPending pending phone = some tx) :
    handleConfirmationMessage pending phone .confirm nowMs =
      (erasePending pending phone, .executed tx) := by
  unfold handleConfirmationMessage
  rw [hlook]

/-- C7 witness: the amended theorem applied to an entry proposed at time 0
and confirmed at time 300001 ms. -/
theorem confirm_executes_regardless_of_age_witness :
    handleConfirmationMessage
        (proposePending [] "15550001111" samplePendingTx)
        "15550001111" .confirm 300001 =
      (erasePending (proposePending [] "15550001111" samplePendingTx)
        "15550001111", .executed samplePendingTx) :=
  confirm_executes_regardless_of_age
    (proposePending [] "15550001111" samplePendingTx)
    "15550001111" samplePendingTx 300001 (by decide)

/-- C5 amended: the settlement calculation uses the fixed configured
buffer (claimMinGasBuffer, default 0.0005), not the spec's clamp formula:
under the default buffer it accepts exactly when gasCost plus 0.0005 is
less than the amount, settling amount minus the actual gas cost — there
is no maxGasFractionOfAmount or minSettleable test and a single
insufficient-funds rejection reason.  The spec's two numeric examples
behave as stated: amount 1 with gas 0.01 settles 0.99, and amount 0.001
with gas 0.0009 is rejected. -/
theorem settlement_calc_fixed_buffer :
    (∀ amount gasCost s : Rat,
      claimSettlementCalc defaultClaimMinGasBuffer amount gasCost = some s ↔
        (gasCost + 5/10000 < amount ∧ s = amount - gasCost)) ∧
    claimSettlementCalc defaultClaimMinGasBuffer 1 (1/100) = some (99/100) ∧
    claimSettlementCalc defaultClaimMinGasBuffer (1/1000) (9/10000) = none := by
  refine ⟨?_, by decide, by decide⟩
  intro amount gasCost s
  have h5 : ¬ ((5 : Rat) / 10000 = 0) := by norm_num
  have hcalc : claimSettlementCalc defaultClaimMinGasBuffer amount gasCost =
      if amount ≤ gasCost + 5/10000 then none else some (amount - gasCost) := by
    simp only [claimSettlementCalc, defaultClaimMinGasBuffer, if_neg h5]
  rw [hcalc]
  constructor
  · intro h
    split at h
    · cases h
    · next hle =>
      cases h
      exact ⟨lt_of_not_le hle, rfl⟩
  · rintro ⟨hlt, rfl⟩
    rw [if_neg (not_le_of_lt hlt)]

/-- C3 amended: when the settlement broadcast fails (the send throws or
returns no hash), validateAndClaim rethrows and performs no write at all:
the claims store is unchanged — the record is left pending and no
status failed with an error note is persisted.  (Only the refund sweep
persists failed on a broadcast error.) -/
theorem broadcast_failure_no_failed_write
    (cfgBuffer : Rat) (env : ClaimEnv) (store : List ClaimRecord)
    (t p dest : Option String) (hsend : env.sendResult = none) :
    (validateAndClaim cfgBuffer env store t p dest).claimsStore = store ∧
    ∀ h g tr,
      (validateAndClaim cfgBuffer env store t p dest).result ≠ .ok h g tr := by
  unfold validateAndClaim
  simp only [hsend]
  repeat' split
  all_goals exact ⟨rfl, by intro h g tr hc; cases hc⟩

/-- C3 witness: the amended theorem applied to the sample pending record
with a failing broadcast oracle. -/
theorem broadcast_failure_no_failed_write_witness :
    (validateAndClaim defaultClaimMinGasBuffer
        { sampleClaimEnv with sendResult := none } [sampleRecord]
        (some sampleToken) (some "15550001111") (some "0xDest")).claimsStore =
      [sampleRecord] ∧
    ∀ h g tr,
      (validateAndClaim defaultClaimMinGasBuffer
        { sampleClaimEnv with sendResult := none } [sampleRecord]
        (some sampleToken) (some "15550001111") (some "0xDest")).result ≠
        .ok h g tr :=
  broadcast_failure_no_failed_write defaultClaimMinGasBuffer
    { sampleClaimEnv with sendResult := none } [sampleRecord]
    (some sampleToken) (some "15550001111") (some "0xDest") rfl

/-- C10: processing an incoming transaction is idempotent in the hash:
when a record with the same hash already exists the store is unchanged
and no notification is sent, and reprocessing the same transaction right
after it was first recorded — even for a different user — inserts
nothing and notifies nobody. -/
theorem incoming_tx_idempotent (userPhone userPhone2 : String)
    (tx : IncomingTx) (store : List TxRecord) :
    ((∃ r ∈ store, r.tx_hash = tx.hash) →
      processIncomingTransaction userPhone tx store = (store, none)) ∧
    processIncomingTransaction userPhone2 tx
        (processIncomingTransaction userPhone tx store).1 =
      ((processIncomingTransaction userPhone tx store).1, none) := by
  constructor
  · rintro ⟨r, hr, hh⟩
    unfold processIncomingTransaction
    cases hf : findTransactionByHash store tx.hash with
    | some _ => rfl
    | none =>
      exfalso
      unfold findTransactionByHash at hf
      rw [List.find?_eq_none] at hf
      exact hf r hr (by simp [hh])
  · unfold processIncomingTransaction
    cases hf : findTransactionByHash store tx.hash with
    | some _ => simp [hf]
    | none =>
      simp only []
      unfold findTransactionByHash at hf ⊢
      rw [List.find?_append, hf]
      simp

/-- C10 witness: the no-op part applied to a store already holding the
hash. -/
theorem incoming_tx_idempotent_witness :
    processIncomingTransaction "15550001111"
        { hash := "0xIncoming", sender := "0xFrom", recipient := "0xTo",
          value := 1, timestamp := 7 }
        [{ user_phone := "15550001111", tx_hash := "0xIncoming",
           sender := "0xFrom", recipient := "0xTo", amount := 1,
           status := .success, timestamp := 7 }] =
      ([{ user_phone := "15550001111", tx_hash := "0xIncoming",
          sender := "0xFrom", recipient := "0xTo", amount := 1,
          status := .success, timestamp := 7 }], none) :=
  (incoming_tx_idempotent "15550001111" "15550001111"
    { hash := "0xIncoming", sender := "0xFrom", recipient := "0xTo",
      value := 1, timestamp := 7 }
    [{ user_phone := "15550001111", tx_hash := "0xIncoming",
       sender := "0xFrom", recipient := "0xTo", amount := 1,
       status := .success, timestamp := 7 }]).1
    ⟨{ user_phone := "15550001111", tx_hash := "0xIncoming",
       sender := "0xFrom", recipient := "0xTo", amount := 1,
       status := .success, timestamp := 7 }, by simp, rfl⟩

/-- C9 counterexample: a createHold request with every field present and
amount minus one — an amount that is not greater than zero — passes the
truthiness guard and persists a pending claim record with the negative
amount. -/
theorem negative_amount_hold_accepted_cex :
    ¬ ((-1 : Rat) > 0) ∧
    (createHold sampleHoldEnv [] negativeHoldReq).result =
      .ok (buildClaimLink "919489042245" sampleToken) sampleToken ∧
    ((createHold sampleHoldEnv [] negativeHoldReq).claimsStore.map
      (fun r => (r.amount_avax, r.status))) = [(-1, .pending)] := by
  refine ⟨?_, ?_, ?_⟩ <;> decide

/-- Helper: the numeric truthiness test succeeds exactly on an absent or
zero amount. -/
theorem optAmtFalsy_eq_true (o : Option Rat) :
    optAmtFalsy o = true ↔ o = none ∨ o = some 0 := by
  cases o <;> simp [optAmtFalsy]

/-- C9 amended: createHold fails with the invalid-hold-request error
exactly when one of the six guarded fields is absent (empty string,
respectively missing or zero amount) — a nonzero amount, including a
negative one, passes, and holdTxHash is not guarded at all; on failure no
claim record is persisted. -/
theorem createHold_validation_iff (env : HoldEnv) (store : List ClaimRecord)
    (req : HoldRequest) :
    ((createHold env store req).result = .err ↔
      (req.senderPhone = "" ∨ req.senderAddress = "" ∨
        req.recipientPhone = "" ∨ req.amountAvax = none ∨
        req.amountAvax = some 0 ∨ req.ephemeralWalletId = "" ∨
        req.ephemeralWalletAddress = "")) ∧
    ((createHold env store req).result = .err →
      (createHold env store req).claimsStore = store) := by
  have hfalsy :
      (optStrFalsy (some req.senderPhone) ||
        optStrFalsy (some req.senderAddress) ||
        optStrFalsy (some req.recipientPhone) || optAmtFalsy req.amountAvax ||
        optStrFalsy (some req.ephemeralWalletId) ||
        optStrFalsy (some req.ephemeralWalletAddress)) = true ↔
      (req.senderPhone = "" ∨ req.senderAddress = "" ∨
        req.recipientPhone = "" ∨ req.amountAvax = none ∨
        req.amountAvax = some 0 ∨ req.ephemeralWalletId = "" ∨
        req.ephemeralWalletAddress = "") := by
    simp only [Bool.or_eq_true, optStrFalsy, decide_eq_true_eq,
      optAmtFalsy_eq_true]
    tauto
  by_cases hguard :
      (optStrFalsy (some req.senderPhone) ||
        optStrFalsy (some req.senderAddress) ||
        optStrFalsy (some req.recipientPhone) || optAmtFalsy req.amountAvax ||
        optStrFalsy (some req.ephemeralWalletId) ||
        optStrFalsy (some req.ephemeralWalletAddress)) = true
  · have hout : createHold env store req =
        { result := .err, claimsStore := store, logs := [] } := by
      unfold createHold
      rw [if_pos hguard]
    rw [hout]
    exact ⟨⟨fun _ => hfalsy.mp hguard, fun _ => rfl⟩, fun _ => rfl⟩
  · rw [hfalsy] at hguard
    cases ha : req.amountAvax with
    | none => exact absurd (by tauto) hguard
    | some a =>
      rw [ha] at hguard
      have hout : (createHold env store req).result =
          .ok (buildClaimLink env.botNumber env.token) env.token := by
        unfold createHold
        rw [if_neg (by rw [hfalsy, ha]; exact hguard), ha]
      rw [hout]
      constructor
      · constructor
        · intro hres
          exact absurd hres (by simp)
        · intro hrhs
          exact absurd hrhs hguard
      · intro hres
        exact absurd hres (by simp)

/-- C9 witness: the amended theorem applied to a request with an empty
sender phone. -/
theorem createHold_validation_iff_witness :
    (createHold sampleHoldEnv [] emptySenderReq).result = .err ∧
    (createHold sampleHoldEnv [] emptySenderReq).claimsStore = [] :=
  have h := createHold_validation_iff sampleHoldEnv [] emptySenderReq
  ⟨h.1.mpr (Or.inl rfl), h.2 (h.1.mpr (Or.inl rfl))⟩

/-- Helper: an accepted settlement calculation settles exactly amount
minus the actual gas cost. -/
theorem claimSettlementCalc_some (cfgBuffer amount gasCost s : Rat)
    (h : claimSettlementCalc cfgBuffer amount gasCost = some s) :
    s = amount - gasCost := by
  by_cases hle : amount ≤ gasCost +
      (if cfgBuffer = 0 then 2 / 1000 else cfgBuffer)
  · rw [claimSettlementCalc, if_pos hle] at h
    cases h
  · rw [claimSettlementCalc, if_neg hle] at h
    exact (Option.some.injEq _ _ ▸ h).symm

/-- Helper: complete case analysis of one validateAndClaim call — either
it errs and leaves the store untouched, or every check passed against
some pending record found by digest lookup, the broadcast succeeded, and
the outcome is the success result together with the updateClaimById
write of the claimed document. -/
theorem validateAndClaim_cases (cfgBuffer : Rat) (env : ClaimEnv)
    (store : List ClaimRecord) (tp cp ra : Option String) :
    ((validateAndClaim cfgBuffer env store tp cp ra).claimsStore = store ∧
      ∀ h g tr,
        (validateAndClaim cfgBuffer env store tp cp ra).result ≠
          .ok h g tr) ∨
    (∃ t record txHash gasCost transferAmount,
      tp = some t ∧
      findByTokenHash store (hashToken t) = some record ∧
      record.status = .pending ∧
      env.gasEstimate = some gasCost ∧
      claimSettlementCalc cfgBuffer record.amount_avax gasCost =
        some transferAmount ∧
      env.sendResult = some txHash ∧
      (validateAndClaim cfgBuffer env store tp cp ra).result =
        .ok txHash gasCost transferAmount ∧
      (validateAndClaim cfgBuffer env store tp cp ra).claimsStore =
        updateClaimById store record.id
          (.claimedDoc txHash gasCost transferAmount)) := by
  unfold validateAndClaim
  repeat' split
  all_goals try exact Or.inl ⟨rfl, by intro h g tr hc; cases hc⟩
  exact Or.inr ⟨_, _, _, _, _, rfl, by assumption, of_not_not (by assumption),
    by assumption, by assumption, by assumption, rfl, rfl⟩

/-- C6: whenever a claim settlement or an expiry refund succeeds, the
amount transferred (respectively refunded) is the escrowed amount minus
the actual estimated gas cost, so the persisted settled amount plus the
persisted gas cost equals the original escrowed amount; the safety buffer
never enters the deduction. -/
theorem settlement_conservation :
    (∀ (cfgBuffer : Rat) (env : ClaimEnv) (store : List ClaimRecord)
        (t p dest : Option String) (h : String) (g tr : Rat),
      (validateAndClaim cfgBuffer env store t p dest).result = .ok h g tr →
      ∃ r, r ∈ store ∧ r.status = .pending ∧ tr + g = r.amount_avax ∧
        (validateAndClaim cfgBuffer env store t p dest).claimsStore =
          updateClaimById store r.id (.claimedDoc h g tr)) ∧
    (∀ (cfgBuffer : Rat) (oracle : RefundOracle) (store : List ClaimRecord)
        (rec : ClaimRecord) (gasCost refundAmount : Rat) (txHash : String),
      oracle.walletThrows = false → oracle.gasEstimate = some gasCost →
      claimSettlementCalc cfgBuffer rec.amount_avax gasCost =
        some refundAmount →
      oracle.sendResult = some txHash →
      refundOne cfgBuffer oracle store rec =
        (updateClaimById store rec.id
          (.refundedDoc txHash gasCost refundAmount),
          [(rec.sender_wallet_address, refundAmount)]) ∧
        refundAmount + gasCost = rec.amount_avax) := by
  constructor
  · intro cfgBuffer env store t p dest h g tr hres
    rcases validateAndClaim_cases cfgBuffer env store t p dest with
      ⟨_, hne⟩ | ⟨t', record, h', g', tr', _, hfind, hpend, _, hcalc, _,
        hresq, hstoreq⟩
    · exact absurd hres (hne h g tr)
    · have hok := hresq.symm.trans hres
      injection hok with e1 e2 e3
      subst e1; subst e2; subst e3
      refine ⟨record, ?_, hpend, ?_, hstoreq⟩
      · exact List.mem_of_find?_eq_some hfind
      · rw [claimSettlementCalc_some _ _ _ _ hcalc]
        ring
  · intro cfgBuffer oracle store rec gasCost refundAmount txHash hw hg hcalc hs
    constructor
    · simp [refundOne, hw, hg, hcalc, hs]
    · rw [claimSettlementCalc_some _ _ _ _ hcalc]
      ring

/-- C6 witness: the claim-path part at the sample record with gas 0.01
(settling 0.99), and the refund-path part at the same record. -/
theorem settlement_conservation_witness :
    (∃ r, r ∈ [sampleRecord] ∧ r.status = .pending ∧
      (99 : Rat)/100 + 1/100 = r.amount_avax ∧
      (validateAndClaim defaultClaimMinGasBuffer sampleClaimEnv [sampleRecord]
        (some sampleToken) (some "15550001111") (some "0xDest")).claimsStore =
        updateClaimById [sampleRecord] r.id
          (.claimedDoc "0xClaim" (1/100) (99/100))) ∧
    (refundOne defaultClaimMinGasBuffer sampleRefundOracle [sampleRecord]
        sampleRecord =
      (updateClaimById [sampleRecord] sampleRecord.id
        (.refundedDoc "0xRefund" (1/100) (99/100)),
        [(sampleRecord.sender_wallet_address, 99/100)]) ∧
      (99 : Rat)/100 + 1/100 = sampleRecord.amount_avax) :=
  ⟨settlement_conservation.1 defaultClaimMinGasBuffer sampleClaimEnv
      [sampleRecord] (some sampleToken) (some "15550001111") (some "0xDest")
      "0xClaim" (1/100) (99/100) (by decide),
    settlement_conservation.2 defaultClaimMinGasBuffer sampleRefundOracle
      [sampleRecord] sampleRecord (1/100) (99/100) "0xRefund" rfl rfl
      (by decide) rfl⟩

/-- C4 amended: validateAndClaim runs its checks in exactly the order
digest lookup, status, phone, expiry, then gas estimate and settlement
calculation, the first failing check determining the error: a mismatched
claimer phone fails with the phone-mismatch error for every gas and
broadcast oracle, and an expired attempt fails with the expired error
with no settlement broadcast and no write — but the expiry test is
strict (expires_at before now), so an attempt at the exact expiry
instant is not treated as expired (the unamended boundary form is
refuted by the counterexample). -/
theorem validateAndClaim_check_order (cfgBuffer : Rat) (env : ClaimEnv)
    (store : List ClaimRecord) (t p dest : String)
    (ht : t ≠ "") (hp : p ≠ "") (hdest : dest ≠ "") :
    (findByTokenHash store (hashToken t) = none →
      (validateAndClaim cfgBuffer env store (some t) (some p)
        (some dest)).result = .err .invalidOrExpired) ∧
    (∀ r, findByTokenHash store (hashToken t) = some r →
      r.status ≠ .pending →
      (validateAndClaim cfgBuffer env store (some t) (some p)
        (some dest)).result = .err (.notActive r.status)) ∧
    (∀ r, findByTokenHash store (hashToken t) = some r →
      r.status = .pending → r.recipient_phone ≠ p →
      (validateAndClaim cfgBuffer env store (some t) (some p)
        (some dest)).result = .err .phoneMismatch) ∧
    (∀ r e, findByTokenHash store (hashToken t) = some r →
      r.status = .pending → r.recipient_phone = p →
      r.expires_at = some e → e < env.now →
      (validateAndClaim cfgBuffer env store (some t) (some p)
        (some dest)).result = .err .expired ∧
      (validateAndClaim cfgBuffer env store (some t) (some p)
        (some dest)).broadcasts = [] ∧
      (validateAndClaim cfgBuffer env store (some t) (some p)
        (some dest)).claimsStore = store) ∧
    (∀ r e g, findByTokenHash store (hashToken t) = some r →
      r.status = .pending → r.recipient_phone = p →
      r.expires_at = some e → ¬ e < env.now →
      env.walletAvailable = true → env.gasEstimate = some g →
      claimSettlementCalc cfgBuffer r.amount_avax g = none →
      (validateAndClaim cfgBuffer env store (some t) (some p)
        (some dest)).result = .err .insufficientFundsForGas) := by
  refine ⟨?_, ?_, ?_, ?_, ?_⟩
  · intro hfind
    unfold validateAndClaim
    simp [optStrFalsy, ht, hp, hdest, hfind]
  · intro r hfind hst
    unfold validateAndClaim
    simp [optStrFalsy, ht, hp, hdest, hfind, hst]
  · intro r hfind hpend hphone
    unfold validateAndClaim
    simp [optStrFalsy, ht, hp, hdest, hfind, hpend, hphone]
  · intro r e hfind hpend hphone hexp hlt
    refine ⟨?_, ?_, ?_⟩ <;>
      · unfold validateAndClaim
        simp [optStrFalsy, ht, hp, hdest, hfind, hpend, hphone, hexp, hlt]
  · intro r e g hfind hpend hphone hexp hnlt hw hg hcalc
    unfold validateAndClaim
    simp [optStrFalsy, ht, hp, hdest, hfind, hpend, hphone, hexp, hnlt,
      hw, hg, hcalc]

/-- C4 witness: the five checks exercised at concrete inputs — unknown
token, claimed record, wrong phone, expired record at time 101, and a gas
estimate of a full 1 AVAX. -/
theorem validateAndClaim_check_order_witness :
    (validateAndClaim defaultClaimMinGasBuffer sampleClaimEnv []
      (some sampleToken) (some "15550001111") (some "0xDest")).result =
      .err .invalidOrExpired ∧
    (validateAndClaim defaultClaimMinGasBuffer sampleClaimEnv
      [claimedRecord] (some sampleToken) (some "15550001111")
      (some "0xDest")).result = .err (.notActive .claimed) ∧
    (validateAndClaim defaultClaimMinGasBuffer sampleClaimEnv
      [sampleRecord] (some sampleToken) (some "19998887777")
      (some "0xDest")).result = .err .phoneMismatch ∧
    (validateAndClaim defaultClaimMinGasBuffer
      { sampleClaimEnv with now := 101 } [sampleRecord] (some sampleToken)
      (some "15550001111") (some "0xDest")).result = .err .expired ∧
    (validateAndClaim defaultClaimMinGasBuffer
      { sampleClaimEnv with now := 101 } [sampleRecord] (some sampleToken)
      (some "15550001111") (some "0xDest")).broadcasts = [] ∧
    (validateAndClaim defaultClaimMinGasBuffer
      { sampleClaimEnv with gasEstimate := some 1 } [sampleRecord]
      (some sampleToken) (some "15550001111") (some "0xDest")).result =
      .err .insufficientFundsForGas :=
  ⟨(validateAndClaim_check_order defaultClaimMinGasBuffer sampleClaimEnv []
      sampleToken "15550001111" "0xDest" (by decide) (by decide)
      (by decide)).1 rfl,
    (validateAndClaim_check_order defaultClaimMinGasBuffer sampleClaimEnv
      [claimedRecord] sampleToken "15550001111" "0xDest" (by decide)
      (by decide) (by decide)).2.1 claimedRecord (by decide) (by decide),
    (validateAndClaim_check_order defaultClaimMinGasBuffer sampleClaimEnv
      [sampleRecord] sampleToken "19998887777" "0xDest" (by decide)
      (by decide) (by decide)).2.2.1 sampleRecord (by decide) (by decide)
      (by decide),
    ((validateAndClaim_check_order defaultClaimMinGasBuffer
      { sampleClaimEnv with now := 101 } [sampleRecord] sampleToken
      "15550001111" "0xDest" (by decide) (by decide)
      (by decide)).2.2.2.1 sampleRecord 100 (by decide) (by decide)
      (by decide) (by decide) (by decide)).1,
    ((validateAndClaim_check_order defaultClaimMinGasBuffer
      { sampleClaimEnv with now := 101 } [sampleRecord] sampleToken
      "15550001111" "0xDest" (by decide) (by decide)
      (by decide)).2.2.2.1 sampleRecord 100 (by decide) (by decide)
      (by decide) (by decide) (by decide)).2.1,
    (validateAndClaim_check_order defaultClaimMinGasBuffer
      { sampleClaimEnv with gasEstimate := some 1 } [sampleRecord]
      sampleToken "15550001111" "0xDest" (by decide) (by decide)
      (by decide)).2.2.2.2 sampleRecord 100 1 (by decide) (by decide)
      (by decide) (by decide) (by decide) (by decide) (by decide)
      (by decide)⟩

/-- Helper: statusLe is reflexive. -/
theorem statusLe_refl (a : ClaimStatus) : statusLe a a := Or.inr rfl

/-- Helper: statusLe is transitive. -/
theorem statusLe_trans (a b c : ClaimStatus) (h1 : statusLe a b)
    (h2 : statusLe b c) : statusLe a c := by
  rcases h1 with h1 | rfl
  · exact Or.inl h1
  · exact h2

/-- Helper: StoreMono is reflexive. -/
theorem storeMono_refl (s : List ClaimRecord) : StoreMono s s :=
  ⟨le_refl _, fun _ _ _ => statusLe_refl _⟩

/-- Helper: StoreMono is transitive. -/
theorem storeMono_trans (a b c : List ClaimRecord) (h1 : StoreMono a b)
    (h2 : StoreMono b c) : StoreMono a c := by
  refine ⟨le_trans h1.1 h2.1, fun j hj hj' => ?_⟩
  have hjb : j < b.length := lt_of_lt_of_le hj h1.1
  exact statusLe_trans _ _ _ (h1.2 j hj hjb) (h2.2 j hjb hj')

/-- Helper: a store only grows by appending. -/
theorem storeMono_append (s l : List ClaimRecord) :
    StoreMono s (s ++ l) := by
  refine ⟨by simp, fun j hj hj' => ?_⟩
  rw [List.get_append _ hj]
  exact statusLe_refl _

/-- Helper: updateClaimById preserves the list length. -/
theorem updateClaimById_length (store : List ClaimRecord) (i : Nat)
    (doc : SetDoc) : (updateClaimById store i doc).length = store.length := by
  induction store with
  | nil => rfl
  | cons r rest ih =>
    unfold updateClaimById
    split
    · simp
    · simp [ih]

/-- Helper: a set document never changes the document id. -/
theorem applySet_id (doc : SetDoc) (r : ClaimRecord) :
    (applySet doc r).id = r.id := by
  cases doc <;> rfl

/-- Helper: updateClaimById preserves the id sequence. -/
theorem updateClaimById_map_id (store : List ClaimRecord) (i : Nat)
    (doc : SetDoc) :
    (updateClaimById store i doc).map (fun r => r.id) =
      store.map (fun r => r.id) := by
  induction store with
  | nil => rfl
  | cons r rest ih =>
    unfold updateClaimById
    split
    · simp [applySet_id]
    · simp [ih]

/-- Helper: membership after updateClaimById — a record is either an
untouched member of the old store or the rewrite of an old member with
the matching id. -/
theorem updateClaimById_mem (store : List ClaimRecord) (i : Nat)
    (doc : SetDoc) (r' : ClaimRecord)
    (h : r' ∈ updateClaimById store i doc) :
    r' ∈ store ∨ ∃ r₀, r₀ ∈ store ∧ r₀.id = i ∧ r' = applySet doc r₀ := by
  induction store with
  | nil => cases h
  | cons r rest ih =>
    unfold updateClaimById at h
    split at h
    · next heq =>
      rcases List.mem_cons.mp h with h1 | h2
      · exact Or.inr ⟨r, List.mem_cons_self r rest, heq, h1⟩
      · exact Or.inl (List.mem_cons_of_mem _ h2)
    · rcases List.mem_cons.mp h with h1 | h2
      · exact Or.inl (h1 ▸ List.mem_cons_self r rest)
      · rcases ih h2 with h3 | ⟨r₀, hm, hid, he⟩
        · exact Or.inl (List.mem_cons_of_mem _ h3)
        · exact Or.inr ⟨r₀, List.mem_cons_of_mem _ hm, hid, he⟩

/-- Helper: equal lists agree position-wise. -/
theorem listGet_congr (l l' : List ClaimRecord) (h : l = l') (j : Nat)
    (hj : j < l.length) (hj' : j < l'.length) :
    l.get ⟨j, hj⟩ = l'.get ⟨j, hj'⟩ := by
  subst h
  rfl

/-- Helper: position-wise effect of updateClaimById. -/
theorem updateClaimById_get (store : List ClaimRecord) (i : Nat)
    (doc : SetDoc) (j : Nat) (hj : j < store.length)
    (hj' : j < (updateClaimById store i doc).length) :
    (updateClaimById store i doc).get ⟨j, hj'⟩ = store.get ⟨j, hj⟩ ∨
    ((updateClaimById store i doc).get ⟨j, hj'⟩ =
        applySet doc (store.get ⟨j, hj⟩) ∧
      (store.get ⟨j, hj⟩).id = i) := by
  induction store generalizing j with
  | nil => exact absurd hj (Nat.not_lt_zero j)
  | cons r rest ih =>
    by_cases hri : r.id = i
    · have hupd : updateClaimById (r :: rest) i doc =
          applySet doc r :: rest := by
        simp only [updateClaimById]
        rw [if_pos hri]
      have hlen : j < (applySet doc r :: rest).length := by
        simpa using hj
      have h0 := listGet_congr _ _ hupd j hj' hlen
      cases j with
      | zero => exact Or.inr ⟨h0, hri⟩
      | succ k => exact Or.inl h0
    · have hupd : updateClaimById (r :: rest) i doc =
          r :: updateClaimById rest i doc := by
        simp only [updateClaimById]
        rw [if_neg hri]
      have hlen : j < (r :: updateClaimById rest i doc).length := by
        rw [List.length_cons, updateClaimById_length]
        simpa using hj
      have h0 := listGet_congr _ _ hupd j hj' hlen
      cases j with
      | zero => exact Or.inl h0
      | succ k =>
        have hk : k < (updateClaimById rest i doc).length := by
          rw [updateClaimById_length]
          exact Nat.lt_of_succ_lt_succ hj
        rw [h0]
        exact ih k (Nat.lt_of_succ_lt_succ hj) hk

/-- Helper: updateClaimById is monotone when every record carrying the
written id is pending. -/
theorem updateClaimById_mono (store : List ClaimRecord) (i : Nat)
    (doc : SetDoc)
    (H : ∀ r ∈ store, r.id = i → r.status = ClaimStatus.pending) :
    StoreMono store (updateClaimById store i doc) := by
  refine ⟨le_of_eq (updateClaimById_length store i doc).symm,
    fun j hj hj' => ?_⟩
  rcases updateClaimById_get store i doc j hj hj' with he | ⟨he, hid⟩
  · rw [he]
    exact statusLe_refl _
  · rw [he]
    have hp : (store.get ⟨j, hj⟩).status = ClaimStatus.pending :=
      H _ (store.get_mem j hj) hid
    exact Or.inl hp

/-- Helper: updateClaimById preserves well-formedness. -/
theorem updateClaimById_wf (store : List ClaimRecord) (i : Nat)
    (doc : SetDoc) (hwf : WFStore store) :
    WFStore (updateClaimById store i doc) := by
  unfold WFStore
  rw [updateClaimById_map_id]
  exact hwf

/-- Helper: every refundOne step is an updateClaimById on the record's
id. -/
theorem refundOne_fst (cfgBuffer : Rat) (o : RefundOracle)
    (store : List ClaimRecord) (rec : ClaimRecord) :
    ∃ doc, (refundOne cfgBuffer o store rec).1 =
      updateClaimById store rec.id doc := by
  unfold refundOne
  repeat' split
  all_goals exact ⟨_, rfl⟩

/-- Helper: the store component of refundExpired is the fold of the
per-record refunds. -/
theorem refundExpired_fst (cfgBuffer : Rat) (oracle : Nat → RefundOracle)
    (now : Int) (store : List ClaimRecord) :
    (refundExpired cfgBuffer oracle now store).1 =
      sweepStores cfgBuffer oracle (findExpiringPending store now) store := by
  unfold refundExpired sweepStores
  generalize findExpiringPending store now = recs
  suffices hgen : ∀ (recs : List ClaimRecord) (st : List ClaimRecord)
      (bs : List (String × Rat)),
      (recs.foldl
        (fun acc rec =>
          let step := refundOne cfgBuffer (oracle rec.id) acc.1 rec
          (step.1, acc.2 ++ step.2)) (st, bs)).1 =
      recs.foldl
        (fun st rec => (refundOne cfgBuffer (oracle rec.id) st rec).1) st by
    exact hgen recs store []
  intro recs
  induction recs with
  | nil => intro st bs; rfl
  | cons rec rest ih => intro st bs; exact ih _ _

/-- Helper: each record fetched by findExpiringPending is a pending member
of the store. -/
theorem findExpiringPending_spec (store : List ClaimRecord) (now : Int)
    (rec : ClaimRecord) (h : rec ∈ findExpiringPending store now) :
    rec ∈ store ∧ rec.status = ClaimStatus.pending := by
  unfold findExpiringPending at h
  have hm := List.mem_filter.mp h
  refine ⟨hm.1, ?_⟩
  have hb := hm.2
  rw [Bool.and_eq_true] at hb
  exact of_decide_eq_true hb.1

/-- Helper: the sweep fold is monotone and preserves well-formedness when
the fetched records are pending, distinct by id, and every store record
sharing an id with a fetched record is pending. -/
theorem sweepStores_mono (cfgBuffer : Rat) (oracle : Nat → RefundOracle)
    (recs store : List ClaimRecord)
    (H : ∀ rec ∈ recs, ∀ r ∈ store, r.id = rec.id →
      r.status = ClaimStatus.pending)
    (hnd : (recs.map (fun r => r.id)).Nodup)
    (hwf : WFStore store) :
    StoreMono store (sweepStores cfgBuffer oracle recs store) ∧
      WFStore (sweepStores cfgBuffer oracle recs store) := by
  induction recs generalizing store with
  | nil => exact ⟨storeMono_refl _, hwf⟩
  | cons rec rest ih =>
    obtain ⟨doc, hdoc⟩ := refundOne_fst cfgBuffer (oracle rec.id) store rec
    rw [List.map_cons, List.nodup_cons] at hnd
    have Hhead : ∀ r ∈ store, r.id = rec.id →
        r.status = ClaimStatus.pending :=
      H rec (List.mem_cons_self rec rest)
    have hmono1 : StoreMono store (updateClaimById store rec.id doc) :=
      updateClaimById_mono store rec.id doc Hhead
    have hwf1 : WFStore (updateClaimById store rec.id doc) :=
      updateClaimById_wf store rec.id doc hwf
    have Hrest : ∀ rec' ∈ rest, ∀ r ∈ updateClaimById store rec.id doc,
        r.id = rec'.id → r.status = ClaimStatus.pending := by
      intro rec' hrec' r hr hid
      rcases updateClaimById_mem store rec.id doc r hr with
        hmem | ⟨r₀, hm0, hid0, heq⟩
      · exact H rec' (List.mem_cons_of_mem _ hrec') r hmem hid
      · exfalso
        have hrid : r.id = rec.id := by rw [heq, applySet_id, hid0]
        refine hnd.1 ?_
        rw [hrid.symm.trans hid]
        exact List.mem_map_of_mem (fun r => r.id) hrec'
    have hstep : sweepStores cfgBuffer oracle (rec :: rest) store =
        sweepStores cfgBuffer oracle rest (updateClaimById store rec.id doc) := by
      unfold sweepStores
      rw [List.foldl_cons, hdoc]
    rw [hstep]
    obtain ⟨hm2, hwf2⟩ := ih (updateClaimById store rec.id doc) Hrest hnd.2 hwf1
    exact ⟨storeMono_trans _ _ _ hmono1 hm2, hwf2⟩

/-- Helper: case analysis of createHold's effect on the store. -/
theorem createHold_store (env : HoldEnv) (store : List ClaimRecord)
    (req : HoldRequest) :
    (createHold env store req).claimsStore = store ∨
    ∃ rec, rec.status = ClaimStatus.pending ∧ rec.id = freshId store ∧
      (createHold env store req).claimsStore = store ++ [rec] := by
  unfold createHold
  repeat' split
  all_goals try exact Or.inl rfl
  exact Or.inr ⟨_, rfl, rfl, rfl⟩

/-- Helper: each id is bounded by the running maximum. -/
theorem le_foldr_max (l : List Nat) (x : Nat) (hx : x ∈ l) :
    x ≤ l.foldr max 0 := by
  induction l with
  | nil => cases hx
  | cons a rest ih =>
    rcases List.mem_cons.mp hx with rfl | hx'
    · exact le_max_left _ _
    · exact le_trans (ih hx') (le_max_right _ _)

/-- Helper: the id handed out for a new document is fresh. -/
theorem freshId_not_mem (store : List ClaimRecord) :
    freshId store ∉ store.map (fun r => r.id) := by
  intro hmem
  have := le_foldr_max _ _ hmem
  unfold freshId at this
  omega

/-- Helper: one engine operation is monotone and preserves
well-formedness. -/
theorem applyOp_mono (op : EngineOp) (store : List ClaimRecord)
    (hwf : WFStore store) :
    StoreMono store (applyOp op store) ∧ WFStore (applyOp op store) := by
  cases op with
  | hold env req =>
    rcases createHold_store env store req with h | ⟨rec, _, hid, h⟩
    · simp only [applyOp]
      rw [h]
      exact ⟨storeMono_refl _, hwf⟩
    · simp only [applyOp]
      rw [h]
      refine ⟨storeMono_append _ _, ?_⟩
      unfold WFStore
      rw [List.map_append]
      rw [List.nodup_append]
      refine ⟨hwf, List.nodup_singleton _, ?_⟩
      intro a ha hb
      simp only [List.map_cons, List.map_nil, List.mem_singleton] at hb
      subst hb
      rw [hid] at ha
      exact freshId_not_mem store ha
  | claim cfg env tp cp ra =>
    rcases validateAndClaim_cases cfg env store tp cp ra with
      ⟨hst, _⟩ | ⟨t, record, h, g, tr, _, hfind, hpend, _, _, _, _, hstoreq⟩
    · simp only [applyOp]
      rw [hst]
      exact ⟨storeMono_refl _, hwf⟩
    · simp only [applyOp]
      rw [hstoreq]
      have hrec : record ∈ store := List.mem_of_find?_eq_some hfind
      have H : ∀ r ∈ store, r.id = record.id →
          r.status = ClaimStatus.pending := by
        intro r hr hid
        have : r = record :=
          List.inj_on_of_nodup_map hwf hr hrec hid
        rw [this]
        exact hpend
      exact ⟨updateClaimById_mono store record.id _ H,
        updateClaimById_wf store record.id _ hwf⟩
  | sweep cfg oracle now =>
    have hfst := refundExpired_fst cfg oracle now store
    simp only [applyOp]
    rw [hfst]
    have hsub : List.Sublist (findExpiringPending store now) store :=
      List.filter_sublist store
    have hnd : ((findExpiringPending store now).map
        (fun r => r.id)).Nodup :=
      (hsub.map (fun r => r.id)).nodup hwf
    have H : ∀ rec ∈ findExpiringPending store now, ∀ r ∈ store,
        r.id = rec.id → r.status = ClaimStatus.pending := by
      intro rec hrec r hr hid
      obtain ⟨hmem, hpend⟩ := findExpiringPending_spec store now rec hrec
      have : r = rec := List.inj_on_of_nodup_map hwf hr hmem hid
      rw [this]
      exact hpend
    exact sweepStores_mono cfg oracle _ store H hnd hwf

/-- Helper: a sequence of engine operations is monotone and preserves
well-formedness. -/
theorem applyOps_mono (ops : List EngineOp) (store : List ClaimRecord)
    (hwf : WFStore store) :
    StoreMono store (applyOps ops store) ∧ WFStore (applyOps ops store) := by
  induction ops generalizing store with
  | nil => exact ⟨storeMono_refl _, hwf⟩
  | cons op rest ih =>
    have h1 := applyOp_mono op store hwf
    have h2 := ih (applyOp op store) h1.2
    exact ⟨storeMono_trans _ _ _ h1.1 h2.1, h2.2⟩

/-- C2: over any sequence of engine operations on a store with unique
document ids, each pre-existing record's status only moves along
pending to claimed, refunded or failed and never changes once terminal
(StoreMono), and every record added by createHold starts pending. -/
theorem claim_status_monotonic :
    (∀ (ops : List EngineOp) (store : List ClaimRecord),
      WFStore store → StoreMono store (applyOps ops store)) ∧
    (∀ (env : HoldEnv) (store : List ClaimRecord) (req : HoldRequest)
        (r : ClaimRecord), r ∈ (createHold env store req).claimsStore →
      r ∈ store ∨ r.status = ClaimStatus.pending) := by
  constructor
  · intro ops store hwf
    exact (applyOps_mono ops store hwf).1
  · intro env store req r hr
    rcases createHold_store env store req with h | ⟨rec, hpend, _, h⟩
    · rw [h] at hr
      exact Or.inl hr
    · rw [h] at hr
      rcases List.mem_append.mp hr with h1 | h2
      · exact Or.inl h1
      · rw [List.mem_singleton.mp h2]
        exact Or.inr hpend

/-- C2 witness: the sample pending record stays on the statusLe order
through a refund sweep at its expiry, and the record persisted by a
createHold starts pending. -/
theorem claim_status_monotonic_witness :
    statusLe (([sampleRecord].get ⟨0, Nat.zero_lt_one⟩).status)
      (((applyOps
        [.sweep defaultClaimMinGasBuffer (fun _ => sampleRefundOracle) 100]
        [sampleRecord]).get ⟨0, by decide⟩).status) ∧
    ((createHold sampleHoldEnv [] negativeHoldReq).claimsStore.get
        ⟨0, by decide⟩ ∈ ([] : List ClaimRecord) ∨
      ((createHold sampleHoldEnv [] negativeHoldReq).claimsStore.get
        ⟨0, by decide⟩).status = ClaimStatus.pending) :=
  ⟨(claim_status_monotonic.1
      [.sweep defaultClaimMinGasBuffer (fun _ => sampleRefundOracle) 100]
      [sampleRecord] (by decide)).2 0 Nat.zero_lt_one (by decide),
    claim_status_monotonic.2 sampleHoldEnv [] negativeHoldReq _
      (List.get_mem _ _ _)⟩

end Zappo

